import Mathlib

/-!
Verification of the spacebot dashboard live-state reconciliation core.

The definitions below are a shallow embedding of the dashboard source
(the Dashboard component with its liveStates store and event handlers,
and the useEventSource stream-client hook).  Timestamps are modelled as
natural numbers of milliseconds; the values produced by Date.now() and
Math.random() in the source are passed to the embedded handlers as
explicit parameters, since they are environment inputs read at event
time.
-/

namespace Spacebot

/-- Message origin tag of a ChatMessage in the dashboard source:
the field sender of value "user" or "bot". -/
inductive Sender where
  | user
  | bot
deriving DecidableEq, Repr

/-- ChatMessage from the dashboard source: id, sender, optional
senderName, text, and a millisecond timestamp. -/
structure ChatMessage where
  id : String
  sender : Sender
  senderName : Option String
  text : String
  timestamp : Nat
deriving DecidableEq, Repr

/-- ChannelLiveState from the dashboard source: typing indicator,
message sequence, and the history-load marker. -/
structure ChannelLiveState where
  isTyping : Bool
  messages : List ChatMessage
  historyLoaded : Bool
deriving DecidableEq, Repr

/-- The MAX_MESSAGES cap from the dashboard source. -/
def MAX_MESSAGES : Nat := 50

/-- The liveStates record of the Dashboard component: a map from
channel id to an optional per-channel live state. -/
abbrev Store : Type := String → Option ChannelLiveState

/-- The store with no channels, the initial useState value. -/
def emptyStore : Store := fun _ => none

/-- JavaScript arr.slice(-n): the last n elements of a list (the whole
list when it has at most n elements). -/
def sliceLast (n : Nat) (l : List α) : List α :=
  l.drop (l.length - n)

/-- Reading the typing indicator of a channel, as the UI does:
liveState?.isTyping ?? false. -/
def readTyping (s : Store) (c : String) : Bool :=
  match s c with
  | some st => st.isTyping
  | none => false

/-- Reading the message sequence of a channel:
liveState?.messages ?? []. -/
def readMessages (s : Store) (c : String) : List ChatMessage :=
  match s c with
  | some st => st.messages
  | none => []

/-- Reading the history-load marker of a channel:
liveState?.historyLoaded ?? false. -/
def readLoaded (s : Store) (c : String) : Bool :=
  match s c with
  | some st => st.historyLoaded
  | none => false

/-- InboundMessageEvent from the api client types. -/
structure InboundMessageEvent where
  agent_id : String
  channel_id : String
  sender_id : String
  text : String
deriving DecidableEq, Repr

/-- OutboundMessageEvent from the api client types. -/
structure OutboundMessageEvent where
  agent_id : String
  channel_id : String
  text : String
deriving DecidableEq, Repr

/-- TypingStateEvent from the api client types. -/
structure TypingStateEvent where
  agent_id : String
  channel_id : String
  is_typing : Bool
deriving DecidableEq, Repr

/-- The synthesized id of a live inbound message,
in-(Date.now())-(Math.random()) in the source. -/
def inboundId (now : Nat) (rand : String) : String :=
  "in-" ++ toString now ++ "-" ++ rand

/-- The synthesized id of a live outbound message,
out-(Date.now())-(Math.random()) in the source. -/
def outboundId (now : Nat) (rand : String) : String :=
  "out-" ++ toString now ++ "-" ++ rand

/-- pushMessage from the Dashboard component: append one message to the
channel sequence (creating the default state when the channel is
absent) and keep the last MAX_MESSAGES. -/
def pushMessage (prev : Store) (channelId : String) (message : ChatMessage) : Store :=
  let existing := (prev channelId).getD
    { isTyping := false, messages := [], historyLoaded := false }
  let messages := sliceLast MAX_MESSAGES (existing.messages ++ [message])
  fun c => if c = channelId then some { existing with messages := messages } else prev c

/-- handleInboundMessage from the Dashboard component: push a user
message stamped with the arrival time.  The now and rand parameters
stand for the Date.now() and Math.random() reads in the source. -/
def handleInboundMessage (event : InboundMessageEvent) (now : Nat) (rand : String)
    (prev : Store) : Store :=
  pushMessage prev event.channel_id
    { id := inboundId now rand
      sender := Sender.user
      senderName := some event.sender_id
      text := event.text
      timestamp := now }

/-- handleOutboundMessage from the Dashboard component: push a bot
message stamped with the arrival time, then clear the typing indicator
of the channel, keeping its messages and load marker. -/
def handleOutboundMessage (event : OutboundMessageEvent) (now : Nat) (rand : String)
    (prev : Store) : Store :=
  let s1 := pushMessage prev event.channel_id
    { id := outboundId now rand
      sender := Sender.bot
      senderName := none
      text := event.text
      timestamp := now }
  fun c =>
    if c = event.channel_id then
      some { isTyping := false
             messages := readMessages s1 event.channel_id
             historyLoaded := readLoaded s1 event.channel_id }
    else s1 c

/-- handleTypingState from the Dashboard component: set the typing
indicator of the channel to the event value, keeping its messages and
load marker (with the same ?? defaults as the source). -/
def handleTypingState (event : TypingStateEvent) (prev : Store) : Store :=
  fun c =>
    if c = event.channel_id then
      some { isTyping := event.is_typing
             messages := readMessages prev event.channel_id
             historyLoaded := readLoaded prev event.channel_id }
    else prev c

/-- The per-channel body of the history-loading effect in the Dashboard
component: when the channel is already marked historyLoaded the store
is returned unchanged and no fetch is dispatched; otherwise the channel
is marked historyLoaded (keeping its typing state and messages, with
the ?? defaults of the source) and one fetch is dispatched.  The Bool
of the result records whether a fetch was dispatched. -/
def markHistoryLoading (channelId : String) (prev : Store) : Store × Bool :=
  if readLoaded prev channelId then (prev, false)
  else
    ((fun c =>
        if c = channelId then
          some { isTyping := readTyping prev channelId
                 messages := readMessages prev channelId
                 historyLoaded := true }
        else prev c), true)

/-- The last-history timestamp of the merge callback:
history[history.length - 1].timestamp when history is nonempty, else 0. -/
def lastHistoryTs (history : List ChatMessage) : Nat :=
  match history.getLast? with
  | some m => m.timestamp
  | none => 0

/-- The message-list computation of the merge callback: history first,
then the buffered live messages strictly newer than the last history
timestamp, truncated to the last MAX_MESSAGES. -/
def mergeMessages (history sseMessages : List ChatMessage) : List ChatMessage :=
  sliceLast MAX_MESSAGES
    (history ++ sseMessages.filter (fun m => lastHistoryTs history < m.timestamp))

/-- The history-merge callback of the Dashboard component, run when the
fetch resolves: when the channel state is absent the store is returned
unchanged, otherwise its messages become the merge of the history with
the live buffer read at merge time. -/
def mergeHistory (channelId : String) (history : List ChatMessage) (current : Store) : Store :=
  match current channelId with
  | none => current
  | some existing =>
      fun c =>
        if c = channelId then
          some { existing with messages := mergeMessages history existing.messages }
        else current c

/-- The catch handler of the history fetch in the Dashboard component:
it only logs a warning, leaving the store untouched. -/
def historyFetchFailed (_channelId : String) (prev : Store) : Store := prev

/-- ConversationMessage from the api client types; created_at is
modelled as the millisecond value of the ISO timestamp. -/
structure ConversationMessage where
  id : String
  role : Sender
  sender_name : Option String
  sender_id : Option String
  content : String
  created_at : Nat
deriving DecidableEq, Repr

/-- The history row mapping of the Dashboard component, turning a
fetched ConversationMessage into a ChatMessage. -/
def toChatMessage (m : ConversationMessage) : ChatMessage :=
  { id := m.id
    sender := m.role
    senderName :=
      match m.sender_name with
      | some n => some n
      | none => if m.role = Sender.user then m.sender_id else none
    text := m.content
    timestamp := m.created_at }

/-- One store operation of the reconciliation core, tagged with the
environment inputs the source reads while handling it. -/
inductive Op where
  | inbound (event : InboundMessageEvent) (now : Nat) (rand : String)
  | outbound (event : OutboundMessageEvent) (now : Nat) (rand : String)
  | typing (event : TypingStateEvent)
  | markLoading (channelId : String)
  | merge (channelId : String) (history : List ChatMessage)
  | fetchFailed (channelId : String)
deriving DecidableEq, Repr

/-- Applying one store operation. -/
def applyOp : Op → Store → Store
  | Op.inbound event now rand, s => handleInboundMessage event now rand s
  | Op.outbound event now rand, s => handleOutboundMessage event now rand s
  | Op.typing event, s => handleTypingState event s
  | Op.markLoading c, s => (markHistoryLoading c s).1
  | Op.merge c history, s => mergeHistory c history s
  | Op.fetchFailed c, s => historyFetchFailed c s

/-- Applying a list of store operations in order. -/
def applyOps : List Op → Store → Store
  | [], s => s
  | op :: rest, s => applyOps rest (applyOp op s)

/-- Whether running one operation on a store dispatches a history
fetch: only the history-loading effect does, and only when the channel
is not yet marked historyLoaded. -/
def opDispatches (c : String) (op : Op) (s : Store) : Bool :=
  match op with
  | Op.markLoading ch => ch = c && !(readLoaded s ch)
  | _ => false

/-- How many history fetches for a channel a list of operations
dispatches, run from a given store. -/
def dispatchCount (c : String) : List Op → Store → Nat
  | [], _ => 0
  | op :: rest, s =>
      (if opDispatches c op s then 1 else 0) + dispatchCount c rest (applyOp op s)

/-- Whether an operation can change the typing indicator of channel c:
only a typing_state or outbound_message event addressed to c does. -/
def opTouchesTyping (c : String) : Op → Bool
  | Op.typing event => event.channel_id = c
  | Op.outbound event _ _ => event.channel_id = c
  | _ => false

/-! Point lemmas describing what each store operation does to each
channel, read off the definitions above. -/

theorem pushMessage_other (prev : Store) (cid : String) (m : ChatMessage) (c : String)
    (h : c ≠ cid) : pushMessage prev cid m c = prev c := by
  simp [pushMessage, h]

theorem readMessages_pushMessage_self (prev : Store) (cid : String) (m : ChatMessage) :
    readMessages (pushMessage prev cid m) cid =
      sliceLast MAX_MESSAGES (readMessages prev cid ++ [m]) := by
  cases h : prev cid <;> simp [pushMessage, readMessages, h]

theorem readTyping_pushMessage (prev : Store) (cid : String) (m : ChatMessage) (c : String) :
    readTyping (pushMessage prev cid m) c = readTyping prev c := by
  by_cases hc : c = cid
  · subst hc
    cases h : prev c <;> simp [pushMessage, readTyping, h]
  · simp [readTyping, pushMessage_other prev cid m c hc]

theorem readLoaded_pushMessage (prev : Store) (cid : String) (m : ChatMessage) (c : String) :
    readLoaded (pushMessage prev cid m) c = readLoaded prev c := by
  by_cases hc : c = cid
  · subst hc
    cases h : prev c <;> simp [pushMessage, readLoaded, h]
  · simp [readLoaded, pushMessage_other prev cid m c hc]

theorem handleTypingState_other (event : TypingStateEvent) (prev : Store) (c : String)
    (h : c ≠ event.channel_id) : handleTypingState event prev c = prev c := by
  simp [handleTypingState, h]

theorem readTyping_handleTypingState_self (event : TypingStateEvent) (prev : Store) :
    readTyping (handleTypingState event prev) event.channel_id = event.is_typing := by
  simp [handleTypingState, readTyping]

theorem readMessages_handleTypingState (event : TypingStateEvent) (prev : Store) (c : String) :
    readMessages (handleTypingState event prev) c = readMessages prev c := by
  by_cases hc : c = event.channel_id
  · subst hc
    simp [handleTypingState, readMessages]
  · simp [readMessages, handleTypingState_other event prev c hc]

theorem readLoaded_handleTypingState (event : TypingStateEvent) (prev : Store) (c : String) :
    readLoaded (handleTypingState event prev) c = readLoaded prev c := by
  by_cases hc : c = event.channel_id
  · subst hc
    simp [handleTypingState, readLoaded]
  · simp [readLoaded, handleTypingState_other event prev c hc]

theorem handleInboundMessage_other (event : InboundMessageEvent) (now : Nat) (rand : String)
    (prev : Store) (c : String) (h : c ≠ event.channel_id) :
    handleInboundMessage event now rand prev c = prev c :=
  pushMessage_other prev event.channel_id _ c h

theorem readMessages_handleInboundMessage_self (event : InboundMessageEvent) (now : Nat)
    (rand : String) (prev : Store) :
    readMessages (handleInboundMessage event now rand prev) event.channel_id =
      sliceLast MAX_MESSAGES (readMessages prev event.channel_id ++
        [{ id := inboundId now rand
           sender := Sender.user
           senderName := some event.sender_id
           text := event.text
           timestamp := now }]) :=
  readMessages_pushMessage_self prev event.channel_id _

theorem readTyping_handleInboundMessage (event : InboundMessageEvent) (now : Nat)
    (rand : String) (prev : Store) (c : String) :
    readTyping (handleInboundMessage event now rand prev) c = readTyping prev c :=
  readTyping_pushMessage prev event.channel_id _ c

theorem readLoaded_handleInboundMessage (event : InboundMessageEvent) (now : Nat)
    (rand : String) (prev : Store) (c : String) :
    readLoaded (handleInboundMessage event now rand prev) c = readLoaded prev c :=
  readLoaded_pushMessage prev event.channel_id _ c

theorem handleOutboundMessage_other (event : OutboundMessageEvent) (now : Nat) (rand : String)
    (prev : Store) (c : String) (h : c ≠ event.channel_id) :
    handleOutboundMessage event now rand prev c = prev c := by
  simp only [handleOutboundMessage, if_neg h]
  exact pushMessage_other prev event.channel_id _ c h

theorem readTyping_handleOutboundMessage_self (event : OutboundMessageEvent) (now : Nat)
    (rand : String) (prev : Store) :
    readTyping (handleOutboundMessage event now rand prev) event.channel_id = false := by
  simp [handleOutboundMessage, readTyping]

theorem readMessages_handleOutboundMessage_self (event : OutboundMessageEvent) (now : Nat)
    (rand : String) (prev : Store) :
    readMessages (handleOutboundMessage event now rand prev) event.channel_id =
      sliceLast MAX_MESSAGES (readMessages prev event.channel_id ++
        [{ id := outboundId now rand
           sender := Sender.bot
           senderName := none
           text := event.text
           timestamp := now }]) := by
  have h := readMessages_pushMessage_self prev event.channel_id
    { id := outboundId now rand
      sender := Sender.bot
      senderName := none
      text := event.text
      timestamp := now }
  simp [handleOutboundMessage, readMessages] at h ⊢
  exact h

theorem readLoaded_handleOutboundMessage (event : OutboundMessageEvent) (now : Nat)
    (rand : String) (prev : Store) (c : String) :
    readLoaded (handleOutboundMessage event now rand prev) c = readLoaded prev c := by
  by_cases hc : c = event.channel_id
  · subst hc
    have h := readLoaded_pushMessage prev event.channel_id
      { id := outboundId now rand
        sender := Sender.bot
        senderName := none
        text := event.text
        timestamp := now } event.channel_id
    simp [handleOutboundMessage, readLoaded] at h ⊢
    exact h
  · simp [readLoaded, handleOutboundMessage_other event now rand prev c hc]

theorem markHistoryLoading_other (cid : String) (prev : Store) (c : String) (h : c ≠ cid) :
    (markHistoryLoading cid prev).1 c = prev c := by
  by_cases hl : readLoaded prev cid <;> simp [markHistoryLoading, hl, h]

theorem markHistoryLoading_of_loaded (cid : String) (prev : Store)
    (h : readLoaded prev cid = true) : markHistoryLoading cid prev = (prev, false) := by
  simp [markHistoryLoading, h]

theorem readMessages_markHistoryLoading (cid : String) (prev : Store) (c : String) :
    readMessages (markHistoryLoading cid prev).1 c = readMessages prev c := by
  by_cases hl : readLoaded prev cid
  · simp [markHistoryLoading, hl]
  · by_cases hc : c = cid
    · subst hc
      simp [markHistoryLoading, hl, readMessages]
    · simp [readMessages, markHistoryLoading, hl, hc]

theorem readTyping_markHistoryLoading (cid : String) (prev : Store) (c : String) :
    readTyping (markHistoryLoading cid prev).1 c = readTyping prev c := by
  by_cases hl : readLoaded prev cid
  · simp [markHistoryLoading, hl]
  · by_cases hc : c = cid
    · subst hc
      simp [markHistoryLoading, hl, readTyping]
    · simp [readTyping, markHistoryLoading, hl, hc]

theorem readLoaded_markHistoryLoading_self (cid : String) (prev : Store) :
    readLoaded (markHistoryLoading cid prev).1 cid = true := by
  by_cases hl : readLoaded prev cid = true
  · simp [markHistoryLoading, hl]
  · simp only [markHistoryLoading, if_neg hl]
    simp [readLoaded]

theorem readLoaded_markHistoryLoading (cid : String) (prev : Store) (c : String)
    (h : readLoaded prev c = true) : readLoaded (markHistoryLoading cid prev).1 c = true := by
  by_cases hc : c = cid
  · subst hc
    exact readLoaded_markHistoryLoading_self _ prev
  · have hother := markHistoryLoading_other cid prev c hc
    simpa [readLoaded, hother] using h

theorem mergeHistory_other (cid : String) (history : List ChatMessage) (s : Store) (c : String)
    (h : c ≠ cid) : mergeHistory cid history s c = s c := by
  cases hx : s cid <;> simp [mergeHistory, hx, h]

theorem readMessages_mergeHistory_self (cid : String) (history : List ChatMessage) (s : Store)
    (ex : ChannelLiveState) (h : s cid = some ex) :
    readMessages (mergeHistory cid history s) cid = mergeMessages history ex.messages := by
  simp [mergeHistory, h, readMessages]

theorem readTyping_mergeHistory (cid : String) (history : List ChatMessage) (s : Store)
    (c : String) : readTyping (mergeHistory cid history s) c = readTyping s c := by
  cases hx : s cid
  · simp [mergeHistory, hx]
  · by_cases hc : c = cid
    · subst hc
      simp [mergeHistory, hx, readTyping]
    · simp [readTyping, mergeHistory_other cid history s c hc]

theorem readLoaded_mergeHistory (cid : String) (history : List ChatMessage) (s : Store)
    (c : String) : readLoaded (mergeHistory cid history s) c = readLoaded s c := by
  cases hx : s cid
  · simp [mergeHistory, hx]
  · by_cases hc : c = cid
    · subst hc
      simp [mergeHistory, hx, readLoaded]
    · simp [readLoaded, mergeHistory_other cid history s c hc]

/-! Monotonicity of the history-load marker and frame facts about the
typing indicator across whole operations. -/

theorem readLoaded_applyOp (op : Op) (s : Store) (c : String) (h : readLoaded s c = true) :
    readLoaded (applyOp op s) c = true := by
  cases op with
  | inbound event now rand => rw [applyOp, readLoaded_handleInboundMessage]; exact h
  | outbound event now rand => rw [applyOp, readLoaded_handleOutboundMessage]; exact h
  | typing event => rw [applyOp, readLoaded_handleTypingState]; exact h
  | markLoading ch => exact readLoaded_markHistoryLoading ch s c h
  | merge ch history => rw [applyOp, readLoaded_mergeHistory]; exact h
  | fetchFailed ch => exact h

theorem readLoaded_applyOps (L : List Op) (s : Store) (c : String) (h : readLoaded s c = true) :
    readLoaded (applyOps L s) c = true := by
  induction L generalizing s with
  | nil => exact h
  | cons op rest ih => exact ih (applyOp op s) (readLoaded_applyOp op s c h)

theorem readTyping_applyOp_untouched (op : Op) (s : Store) (c : String)
    (h : opTouchesTyping c op = false) : readTyping (applyOp op s) c = readTyping s c := by
  cases op with
  | inbound event now rand => exact readTyping_handleInboundMessage event now rand s c
  | outbound event now rand =>
      have hne : c ≠ event.channel_id := by
        intro hc
        simp [opTouchesTyping, hc] at h
      simp [readTyping, applyOp, handleOutboundMessage_other event now rand s c hne]
  | typing event =>
      have hne : c ≠ event.channel_id := by
        intro hc
        simp [opTouchesTyping, hc] at h
      simp [readTyping, applyOp, handleTypingState_other event s c hne]
  | markLoading ch => exact readTyping_markHistoryLoading ch s c
  | merge ch history => exact readTyping_mergeHistory ch history s c
  | fetchFailed ch => rfl

theorem readTyping_applyOps_untouched (L : List Op) (s : Store) (c : String)
    (h : ∀ op ∈ L, opTouchesTyping c op = false) :
    readTyping (applyOps L s) c = readTyping s c := by
  induction L generalizing s with
  | nil => rfl
  | cons op rest ih =>
      rw [applyOps, ih (applyOp op s) fun x hx => h x (List.mem_cons_of_mem op hx),
        readTyping_applyOp_untouched op s c (h op (List.mem_cons_self op rest))]

/-! Arithmetic of sliceLast, the JavaScript slice(-n). -/

theorem sliceLast_sublist (n : Nat) (l : List α) : List.Sublist (sliceLast n l) l :=
  List.drop_sublist _ l

theorem length_sliceLast_le (n : Nat) (l : List α) : (sliceLast n l).length ≤ n := by
  simp only [sliceLast, List.length_drop]
  omega

theorem length_sliceLast (n : Nat) (l : List α) :
    (sliceLast n l).length = min n l.length := by
  simp only [sliceLast, List.length_drop]
  omega

theorem sliceLast_eq_self (n : Nat) (l : List α) (h : l.length ≤ n) : sliceLast n l = l := by
  simp [sliceLast, Nat.sub_eq_zero_of_le h]

theorem sliceLast_append_of_le (n : Nat) (xs ys : List α) (h : n ≤ ys.length) :
    sliceLast n (xs ++ ys) = sliceLast n ys := by
  unfold sliceLast
  rw [List.length_append, List.drop_append_eq_append_drop]
  have hxs : List.drop (xs.length + ys.length - n) xs = [] :=
    List.drop_eq_nil_of_le (by omega)
  rw [hxs, List.nil_append]
  congr 1
  omega

theorem filter_sliceLast_append (n : Nat) (p : α → Bool) (xs ys : List α)
    (hx : ∀ a ∈ xs, p a = false) (hy : ∀ a ∈ ys, p a = true) :
    (sliceLast n (xs ++ ys)).filter p = sliceLast n ys := by
  unfold sliceLast
  rw [List.length_append, List.drop_append_eq_append_drop, List.filter_append,
    List.filter_eq_nil_iff.mpr (fun a ha => by simp [hx a (List.mem_of_mem_drop ha)]),
    List.filter_eq_self.mpr (fun a ha => hy a (List.mem_of_mem_drop ha)), List.nil_append]
  congr 1
  omega

theorem sliceLast_append_sliceLast (n : Nat) (xs ys : List α) :
    sliceLast n (xs ++ sliceLast n ys) = sliceLast n (xs ++ ys) := by
  by_cases h : ys.length ≤ n
  · rw [sliceLast_eq_self n ys h]
  · have hn : n ≤ ys.length := Nat.le_of_not_le h
    have hlen : (sliceLast n ys).length = n := by rw [length_sliceLast]; omega
    rw [sliceLast_append_of_le n xs ys hn,
      sliceLast_append_of_le n xs (sliceLast n ys) (by omega),
      sliceLast_eq_self n (sliceLast n ys) (by omega)]

/-! The per-channel sequence invariant: bounded length, ascending
timestamps, distinct identities. -/

/-- The invariant on one channel message sequence: at most MAX_MESSAGES
elements, ascending timestamps, and pairwise distinct ids. -/
def msgInv (l : List ChatMessage) : Prop :=
  l.length ≤ MAX_MESSAGES ∧
    l.Pairwise (fun a b => a.timestamp ≤ b.timestamp) ∧
    (l.map (fun m => m.id)).Nodup

/-- The store invariant: every channel sequence satisfies msgInv. -/
def storeInv (s : Store) : Prop := ∀ c, msgInv (readMessages s c)

theorem msgInv_sliceLast (l : List ChatMessage)
    (hp : l.Pairwise (fun a b => a.timestamp ≤ b.timestamp))
    (hn : (l.map (fun m => m.id)).Nodup) : msgInv (sliceLast MAX_MESSAGES l) := by
  refine ⟨length_sliceLast_le _ l, hp.sublist (sliceLast_sublist _ l), hn.sublist ?_⟩
  exact (sliceLast_sublist _ l).map _

theorem msgInv_append_one (l : List ChatMessage) (m : ChatMessage) (hinv : msgInv l)
    (hts : ∀ x ∈ l, x.timestamp ≤ m.timestamp)
    (hid : ∀ x ∈ l, x.id ≠ m.id) :
    msgInv (sliceLast MAX_MESSAGES (l ++ [m])) := by
  apply msgInv_sliceLast
  · rw [List.pairwise_append]
    refine ⟨hinv.2.1, List.pairwise_singleton _ _, fun a ha b hb => ?_⟩
    have hb2 : b = m := by simpa using hb
    subst hb2
    exact hts a ha
  · rw [List.map_append, List.nodup_append]
    refine ⟨hinv.2.2, by simp, fun a ha hb => ?_⟩
    have hb2 : a = m.id := by simpa using hb
    subst hb2
    obtain ⟨x, hx, hxa⟩ := List.mem_map.mp ha
    exact hid x hx hxa

theorem le_lastHistoryTs (l : List ChatMessage)
    (hs : l.Pairwise (fun a b => a.timestamp ≤ b.timestamp)) :
    ∀ m ∈ l, m.timestamp ≤ lastHistoryTs l := by
  induction l with
  | nil => intro m hm; simp at hm
  | cons x tl ih =>
    intro m hm
    cases tl with
    | nil =>
      have hm2 : m = x := by simpa using hm
      subst hm2
      simp [lastHistoryTs]
    | cons y tl2 =>
      have hlast : lastHistoryTs (x :: y :: tl2) = lastHistoryTs (y :: tl2) := by
        simp [lastHistoryTs, List.getLast?_cons_cons]
      rw [hlast]
      rcases List.mem_cons.mp hm with hmx | hm2
      · subst hmx
        have hx : ∀ b ∈ y :: tl2, m.timestamp ≤ b.timestamp := (List.pairwise_cons.mp hs).1
        have hne : (y :: tl2) ≠ ([] : List ChatMessage) := by simp
        have hget : lastHistoryTs (y :: tl2) = ((y :: tl2).getLast hne).timestamp := by
          simp [lastHistoryTs, List.getLast?_eq_getLast _ hne]
        rw [hget]
        exact hx _ (List.getLast_mem hne)
      · exact ih (List.pairwise_cons.mp hs).2 m hm2

theorem msgInv_mergeMessages (history live : List ChatMessage)
    (hhp : history.Pairwise (fun a b => a.timestamp ≤ b.timestamp))
    (hhn : (history.map (fun m => m.id)).Nodup)
    (hlinv : msgInv live)
    (hdisj : ∀ i ∈ history.map (fun m => m.id), i ∉ live.map (fun m => m.id)) :
    msgInv (mergeMessages history live) := by
  unfold mergeMessages
  apply msgInv_sliceLast
  · rw [List.pairwise_append]
    refine ⟨hhp, hlinv.2.1.filter _, fun a ha b hb => ?_⟩
    have hble : lastHistoryTs history < b.timestamp := by
      simpa using (List.mem_filter.mp hb).2
    have hale := le_lastHistoryTs history hhp a ha
    omega
  · rw [List.map_append, List.nodup_append]
    refine ⟨hhn, ?_, fun a ha hb => ?_⟩
    · exact hlinv.2.2.sublist ((List.filter_sublist live).map _)
    · exact hdisj a ha (((List.filter_sublist live).map _).subset hb)

/-- The environment facts the source reads while running one operation:
live events are stamped at the current time, which is at least every
timestamp already buffered for the channel, with a fresh synthesized
id; a fetched history is ascending with pairwise distinct ids that do
not occur in the live buffer of the channel. -/
def opOK : Op → Store → Prop
  | Op.inbound event now rand, s =>
      (∀ m ∈ readMessages s event.channel_id, m.timestamp ≤ now) ∧
        (∀ m ∈ readMessages s event.channel_id, m.id ≠ inboundId now rand)
  | Op.outbound event now rand, s =>
      (∀ m ∈ readMessages s event.channel_id, m.timestamp ≤ now) ∧
        (∀ m ∈ readMessages s event.channel_id, m.id ≠ outboundId now rand)
  | Op.typing _, _ => True
  | Op.markLoading _, _ => True
  | Op.merge c history, s =>
      history.Pairwise (fun a b => a.timestamp ≤ b.timestamp) ∧
        (history.map (fun m => m.id)).Nodup ∧
        (∀ i ∈ history.map (fun m => m.id), i ∉ (readMessages s c).map (fun m => m.id))
  | Op.fetchFailed _, _ => True

/-! Idempotence of the merge computation. -/

theorem filter_mergeMessages (history live : List ChatMessage)
    (hbound : ∀ m ∈ history, m.timestamp ≤ lastHistoryTs history) :
    (mergeMessages history live).filter
        (fun m => lastHistoryTs history < m.timestamp) =
      sliceLast MAX_MESSAGES
        (live.filter (fun m => lastHistoryTs history < m.timestamp)) := by
  unfold mergeMessages
  apply filter_sliceLast_append
  · intro a ha
    have := hbound a ha
    simp only [decide_eq_false_iff_not, Nat.not_lt]
    exact this
  · intro a ha
    exact (List.mem_filter.mp ha).2

theorem mergeMessages_idem (history live : List ChatMessage)
    (hbound : ∀ m ∈ history, m.timestamp ≤ lastHistoryTs history) :
    mergeMessages history (mergeMessages history live) = mergeMessages history live := by
  conv =>
    lhs
    rw [mergeMessages, filter_mergeMessages history live hbound]
  rw [sliceLast_append_sliceLast]
  rfl

/-! Shallow embedding of the useEventSource stream client. -/

/-- The observable outcome of one inbound SSE frame: which handler call
the connect listener of useEventSource performs, if any.  J is the type
of parsed payload values. -/
inductive DispatchOutcome (J : Type) where
  | dropped
  | callParsed (eventType : String) (value : J)
  | callRaw (eventType : String) (payload : String)
deriving DecidableEq, Repr

/-- The connect listener of useEventSource: a listener is registered for
each event type that was a key of the handler map at connect time
(connectKeys); on a frame, the payload is parsed (JSON.parse modelled
by the parse parameter) and the handler currently registered for the
type is invoked with the parsed value, or with the raw payload string
when parsing fails.  With no listener, or no current handler, nothing
is invoked. -/
def dispatchFrame {J : Type} (connectKeys : List String) (hasHandler : String → Bool)
    (parse : String → Option J) (eventType payload : String) : DispatchOutcome J :=
  if eventType ∈ connectKeys then
    if hasHandler eventType then
      match parse payload with
      | some v => DispatchOutcome.callParsed eventType v
      | none => DispatchOutcome.callRaw eventType payload
    else DispatchOutcome.dropped
  else DispatchOutcome.dropped

/-- The mutable refs of useEventSource: conn is some keys when an
EventSource is open with listeners registered for those event types;
pendingDelayMs is some d when a reconnect timer with delay d
milliseconds is scheduled. -/
structure ClientState where
  conn : Option (List String)
  pendingDelayMs : Option Nat
deriving DecidableEq, Repr

/-- The fixed reconnect delay of useEventSource, in milliseconds. -/
def RECONNECT_DELAY_MS : Nat := 2000

/-- connect from useEventSource: close any current source and open a
new one, registering a listener for every key of the current handler
map. -/
def connect (handlerKeys : List String) (s : ClientState) : ClientState :=
  { conn := some handlerKeys, pendingDelayMs := s.pendingDelayMs }

/-- The onerror callback of useEventSource: close the source and
schedule one reconnect after RECONNECT_DELAY_MS. -/
def onerror (_s : ClientState) : ClientState :=
  { conn := none, pendingDelayMs := some RECONNECT_DELAY_MS }

/-- The scheduled reconnect timer firing: the timer is consumed and
connect runs, reading the keys of the current handler map. -/
def fireReconnect (handlerKeys : List String) (s : ClientState) : ClientState :=
  connect handlerKeys { s with pendingDelayMs := none }

/-- The effect cleanup of useEventSource: clearTimeout of any pending
reconnect and close of the current source. -/
def cleanup (_s : ClientState) : ClientState :=
  { conn := none, pendingDelayMs := none }

/-- Whether a frame of the given event type can reach a handler: only
through an open connection holding a listener for that type. -/
def canDeliver (s : ClientState) (eventType : String) : Bool :=
  match s.conn with
  | some keys => eventType ∈ keys
  | none => false

/-! Concrete sample data used by the witnesses. -/

/-- A sample history row with the given timestamp. -/
def histMsg (n : Nat) : ChatMessage :=
  { id := "h" ++ toString n
    sender := Sender.user
    senderName := none
    text := "m"
    timestamp := n }

/-- A sample live-arrived message with the given timestamp. -/
def liveAt (n : Nat) : ChatMessage :=
  { id := inboundId n "r"
    sender := Sender.user
    senderName := some "u"
    text := "live"
    timestamp := n }

/-- A store holding one channel, c2, with one buffered live message at
timestamp 250, already marked historyLoaded. -/
def storeC2 : Store := fun c =>
  if c = "c2" then
    some { isTyping := false, messages := [liveAt 250], historyLoaded := true }
  else none

/-- A store holding one channel, c1, empty and marked historyLoaded. -/
def loadedStore : Store := fun c =>
  if c = "c1" then
    some { isTyping := false, messages := [], historyLoaded := true }
  else none

/-! Claim theorems. -/

/-- C1: when a history load resolves for a channel whose live state
exists, the merged sequence is the fetched history followed by exactly
the buffered live messages strictly newer than the last history
timestamp (0 when the history is empty), truncated to the last
MAX_MESSAGES; consequently a buffered live message that is not itself a
history row and whose timestamp is not newer than the last history
timestamp is absent from the merged sequence. -/
theorem merge_on_load_rule (s : Store) (cid : String) (history : List ChatMessage)
    (ex : ChannelLiveState) (h : s cid = some ex) :
    readMessages (mergeHistory cid history s) cid =
        sliceLast MAX_MESSAGES
          (history ++ ex.messages.filter (fun m => lastHistoryTs history < m.timestamp)) ∧
      ∀ m ∈ ex.messages, m.timestamp ≤ lastHistoryTs history →
        m ∉ history →
        m ∉ readMessages (mergeHistory cid history s) cid := by
  have h1 : readMessages (mergeHistory cid history s) cid =
      mergeMessages history ex.messages :=
    readMessages_mergeHistory_self cid history s ex h
  refine ⟨by rw [h1]; rfl, ?_⟩
  intro m hm hts hnh hmem
  rw [h1] at hmem
  unfold mergeMessages at hmem
  have hsub := (sliceLast_sublist MAX_MESSAGES _).subset hmem
  rcases List.mem_append.mp hsub with hh | hl
  · exact hnh hh
  · have hgt : lastHistoryTs history < m.timestamp := by
      simpa using (List.mem_filter.mp hl).2
    omega

/-- Witness for C1 at the c2 scenario of the spec: history timestamps
100, 200, 300 and one buffered live message at 250; the merged sequence
is exactly the history and the live message is absent. -/
theorem merge_on_load_rule_witness :
    readMessages (mergeHistory "c2" [histMsg 100, histMsg 200, histMsg 300] storeC2) "c2" =
        [histMsg 100, histMsg 200, histMsg 300] ∧
      liveAt 250 ∉
        readMessages (mergeHistory "c2" [histMsg 100, histMsg 200, histMsg 300] storeC2) "c2" := by
  have h := merge_on_load_rule storeC2 "c2" [histMsg 100, histMsg 200, histMsg 300]
    { isTyping := false, messages := [liveAt 250], historyLoaded := true } rfl
  refine ⟨?_, h.2 (liveAt 250) (by simp) (by decide) (by decide)⟩
  rw [h.1]
  decide

/-- C3: a typing_state event sets the typing indicator of its channel
to the event boolean unconditionally; an outbound_message event sets it
to false; an inbound_message event changes no typing indicator; hence
after typing_state true the indicator reads true across any operations
not addressed to the typing indicator of that channel, and after an
outbound_message for the channel it reads false across such
operations, regardless of the prior state. -/
theorem typing_indicator_transitions :
    (∀ (event : TypingStateEvent) (s : Store),
        readTyping (handleTypingState event s) event.channel_id = event.is_typing) ∧
      (∀ (event : OutboundMessageEvent) (now : Nat) (rand : String) (s : Store),
        readTyping (handleOutboundMessage event now rand s) event.channel_id = false) ∧
      (∀ (event : InboundMessageEvent) (now : Nat) (rand : String) (s : Store) (c : String),
        readTyping (handleInboundMessage event now rand s) c = readTyping s c) ∧
      (∀ (event : TypingStateEvent) (s : Store) (L : List Op),
        event.is_typing = true →
        (∀ op ∈ L, opTouchesTyping event.channel_id op = false) →
        readTyping (applyOps L (handleTypingState event s)) event.channel_id = true) ∧
      (∀ (event : OutboundMessageEvent) (now : Nat) (rand : String) (s : Store) (L : List Op),
        (∀ op ∈ L, opTouchesTyping event.channel_id op = false) →
        readTyping (applyOps L (handleOutboundMessage event now rand s))
          event.channel_id = false) := by
  refine ⟨readTyping_handleTypingState_self, readTyping_handleOutboundMessage_self,
    readTyping_handleInboundMessage, ?_, ?_⟩
  · intro event s L htrue hL
    rw [readTyping_applyOps_untouched L _ _ hL, readTyping_handleTypingState_self]
    exact htrue
  · intro event now rand s L hL
    rw [readTyping_applyOps_untouched L _ _ hL, readTyping_handleOutboundMessage_self]

/-- Witness for C3: after typing_state true on c1, an unrelated inbound
event leaves the indicator true, and an outbound for c1 then clears it. -/
theorem typing_indicator_transitions_witness :
    readTyping (applyOps
        [Op.inbound { agent_id := "a", channel_id := "c1", sender_id := "u", text := "x" } 7 "r"]
        (handleTypingState { agent_id := "a", channel_id := "c1", is_typing := true }
          emptyStore)) "c1" = true ∧
      readTyping (applyOps
        [Op.typing { agent_id := "a", channel_id := "c9", is_typing := true }]
        (handleOutboundMessage { agent_id := "a", channel_id := "c1", text := "y" } 9 "r"
          emptyStore)) "c1" = false := by
  constructor
  · exact typing_indicator_transitions.2.2.2.1
      { agent_id := "a", channel_id := "c1", is_typing := true } emptyStore
      [Op.inbound { agent_id := "a", channel_id := "c1", sender_id := "u", text := "x" } 7 "r"]
      rfl (by decide)
  · exact typing_indicator_transitions.2.2.2.2
      { agent_id := "a", channel_id := "c1", text := "y" } 9 "r" emptyStore
      [Op.typing { agent_id := "a", channel_id := "c9", is_typing := true }]
      (by decide)

/-- C5: the history-load marker is monotone: once it reads loaded (the
historyLoaded boolean into which the source collapses the loading and
loaded phases), no single operation and no sequence of operations of
the store makes it read not loaded again. -/
theorem history_loaded_monotone (s : Store) (c : String) (h : readLoaded s c = true) :
    (∀ op : Op, readLoaded (applyOp op s) c = true) ∧
      ∀ L : List Op, readLoaded (applyOps L s) c = true :=
  ⟨fun op => readLoaded_applyOp op s c h, fun L => readLoaded_applyOps L s c h⟩

/-- Witness for C5: a loaded channel stays loaded across a typing event
and a failed-fetch callback. -/
theorem history_loaded_monotone_witness :
    readLoaded (applyOps
      [Op.typing { agent_id := "a", channel_id := "c1", is_typing := true },
        Op.fetchFailed "c1"] loadedStore) "c1" = true :=
  (history_loaded_monotone loadedStore "c1" (by decide)).2 _

/-- C10: each live-event handler leaves every channel other than its
target untouched; a typing_state event leaves the messages and load
marker of its target unchanged; an inbound_message event leaves the
typing indicator and load marker of every channel unchanged. -/
theorem handler_frame_conditions :
    (∀ (event : InboundMessageEvent) (now : Nat) (rand : String) (s : Store) (c : String),
        c ≠ event.channel_id → handleInboundMessage event now rand s c = s c) ∧
      (∀ (event : OutboundMessageEvent) (now : Nat) (rand : String) (s : Store) (c : String),
        c ≠ event.channel_id → handleOutboundMessage event now rand s c = s c) ∧
      (∀ (event : TypingStateEvent) (s : Store) (c : String),
        c ≠ event.channel_id → handleTypingState event s c = s c) ∧
      (∀ (event : TypingStateEvent) (s : Store) (c : String),
        readMessages (handleTypingState event s) c = readMessages s c ∧
          readLoaded (handleTypingState event s) c = readLoaded s c) ∧
      (∀ (event : InboundMessageEvent) (now : Nat) (rand : String) (s : Store) (c : String),
        readTyping (handleInboundMessage event now rand s) c = readTyping s c ∧
          readLoaded (handleInboundMessage event now rand s) c = readLoaded s c) :=
  ⟨handleInboundMessage_other,
    handleOutboundMessage_other,
    handleTypingState_other,
    fun event s c => ⟨readMessages_handleTypingState event s c,
      readLoaded_handleTypingState event s c⟩,
    fun event now rand s c => ⟨readTyping_handleInboundMessage event now rand s c,
      readLoaded_handleInboundMessage event now rand s c⟩⟩

/-- Witness for C10: an inbound event for c1 leaves channel c2 exactly
as it was. -/
theorem handler_frame_conditions_witness :
    handleInboundMessage { agent_id := "a", channel_id := "c1", sender_id := "u", text := "x" }
        3 "r" storeC2 "c2" = storeC2 "c2" :=
  handler_frame_conditions.1
    { agent_id := "a", channel_id := "c1", sender_id := "u", text := "x" }
    3 "r" storeC2 "c2" (by decide)

/-- C2: every store operation (append-on-event, merge-on-load,
typing-state update, history-loading pass, failed-fetch callback)
preserves the per-channel invariant: sequence length at most
MAX_MESSAGES, ascending timestamps, pairwise distinct identities.  The
opOK hypothesis records what the environment supplies in the source:
Date.now() stamps at least as new as the buffered messages, fresh
synthesized ids, and history rows that arrive ascending with distinct
ids not present in the live buffer. -/
theorem store_invariant_preserved (op : Op) (s : Store) (hs : storeInv s)
    (hok : opOK op s) : storeInv (applyOp op s) := by
  cases op with
  | inbound event now rand =>
      intro c
      by_cases hc : c = event.channel_id
      · subst hc
        rw [applyOp, readMessages_handleInboundMessage_self]
        exact msgInv_append_one _ _ (hs event.channel_id) hok.1 fun x hx => hok.2 x hx
      · have hother := handleInboundMessage_other event now rand s c hc
        simpa [applyOp, readMessages, hother] using hs c
  | outbound event now rand =>
      intro c
      by_cases hc : c = event.channel_id
      · subst hc
        rw [applyOp, readMessages_handleOutboundMessage_self]
        exact msgInv_append_one _ _ (hs event.channel_id) hok.1 fun x hx => hok.2 x hx
      · have hother := handleOutboundMessage_other event now rand s c hc
        simpa [applyOp, readMessages, hother] using hs c
  | typing event =>
      intro c
      rw [applyOp, readMessages_handleTypingState]
      exact hs c
  | markLoading ch =>
      intro c
      rw [applyOp, readMessages_markHistoryLoading]
      exact hs c
  | merge ch history =>
      intro c
      cases hx : s ch with
      | none =>
          have hid : mergeHistory ch history s = s := by
            simp [mergeHistory, hx]
          simpa [applyOp, hid] using hs c
      | some ex =>
          by_cases hc : c = ch
          · subst hc
            rw [applyOp, readMessages_mergeHistory_self c history s ex hx]
            have hexm : readMessages s c = ex.messages := by
              simp [readMessages, hx]
            refine msgInv_mergeMessages history ex.messages hok.1 hok.2.1 ?_ ?_
            · rw [← hexm]; exact hs c
            · rw [← hexm]; exact hok.2.2
          · have hother := mergeHistory_other ch history s c hc
            simpa [applyOp, readMessages, hother] using hs c
  | fetchFailed ch => exact hs

/-- Witness for C2: appending an inbound event to the empty store
preserves the invariant. -/
theorem store_invariant_preserved_witness :
    storeInv (applyOp (Op.inbound
      { agent_id := "a", channel_id := "c1", sender_id := "u1", text := "hi" } 5 "r")
      emptyStore) := by
  apply store_invariant_preserved
  · intro c
    simp [storeInv, msgInv, readMessages, emptyStore]
  · constructor <;> intro m hm <;> simp [readMessages, emptyStore] at hm

/-- C4: when the first history-loading pass dispatches a fetch for a
channel and that fetch fails, the channel keeps exactly the message
sequence it had, its load marker reads loaded, no later history-loading
pass dispatches another fetch whatever operations run in between, and
live events still append to the channel. -/
theorem failed_history_fetch (s : Store) (cid : String)
    (h : readLoaded s cid = false) :
    (markHistoryLoading cid s).2 = true ∧
      readMessages (historyFetchFailed cid (markHistoryLoading cid s).1) cid =
        readMessages s cid ∧
      readLoaded (historyFetchFailed cid (markHistoryLoading cid s).1) cid = true ∧
      (∀ L : List Op,
        opDispatches cid (Op.markLoading cid)
          (applyOps L (historyFetchFailed cid (markHistoryLoading cid s).1)) = false) ∧
      (∀ (event : InboundMessageEvent) (now : Nat) (rand : String),
        event.channel_id = cid →
        readMessages (handleInboundMessage event now rand
            (historyFetchFailed cid (markHistoryLoading cid s).1)) cid =
          sliceLast MAX_MESSAGES (readMessages s cid ++
            [{ id := inboundId now rand
               sender := Sender.user
               senderName := some event.sender_id
               text := event.text
               timestamp := now }])) := by
  refine ⟨by simp [markHistoryLoading, h], readMessages_markHistoryLoading cid s cid,
    readLoaded_markHistoryLoading_self cid s, ?_, ?_⟩
  · intro L
    have hloaded : readLoaded (applyOps L (markHistoryLoading cid s).1) cid = true :=
      readLoaded_applyOps L _ cid (readLoaded_markHistoryLoading_self cid s)
    simp [historyFetchFailed, opDispatches, hloaded]
  · intro event now rand hev
    subst hev
    rw [historyFetchFailed, readMessages_handleInboundMessage_self,
      readMessages_markHistoryLoading]

/-- Witness for C4: a failed first fetch for channel c1 on the empty
store leaves the sequence empty, the marker loaded, dispatches no
retry, and a later inbound event appends. -/
theorem failed_history_fetch_witness :
    readMessages (historyFetchFailed "c1" (markHistoryLoading "c1" emptyStore).1) "c1" =
        readMessages emptyStore "c1" ∧
      readLoaded (historyFetchFailed "c1" (markHistoryLoading "c1" emptyStore).1) "c1" = true ∧
      opDispatches "c1" (Op.markLoading "c1")
        (applyOps [] (historyFetchFailed "c1" (markHistoryLoading "c1" emptyStore).1)) = false := by
  have h := failed_history_fetch emptyStore "c1" (by decide)
  exact ⟨h.2.1, h.2.2.1, h.2.2.2.1 []⟩

/-- C6: a frame whose event type had a listener registered at connect
time and whose handler is present in the current handler map is always
delivered: with the parsed value when the payload parses, with the raw
payload string when parsing fails; in neither case is it dropped. -/
theorem dispatch_never_drops {J : Type} (connectKeys : List String)
    (hasHandler : String → Bool) (parse : String → Option J)
    (eventType payload : String) (hk : eventType ∈ connectKeys)
    (hh : hasHandler eventType = true) :
    (∀ v, parse payload = some v →
        dispatchFrame connectKeys hasHandler parse eventType payload =
          DispatchOutcome.callParsed eventType v) ∧
      (parse payload = none →
        dispatchFrame connectKeys hasHandler parse eventType payload =
          DispatchOutcome.callRaw eventType payload) ∧
      dispatchFrame connectKeys hasHandler parse eventType payload ≠
        DispatchOutcome.dropped := by
  refine ⟨?_, ?_, ?_⟩
  · intro v hv
    simp [dispatchFrame, hk, hh, hv]
  · intro hv
    simp [dispatchFrame, hk, hh, hv]
  · cases hv : parse payload <;> simp [dispatchFrame, hk, hh, hv]

/-- Witness for C6: with a listener and handler for typing_state, a
payload that fails to parse is still delivered raw, not dropped. -/
theorem dispatch_never_drops_witness :
    dispatchFrame ["inbound_message", "outbound_message", "typing_state"]
        (fun _ => true) (fun p => if p = "42" then some 42 else none)
        "typing_state" "xyz" =
      DispatchOutcome.callRaw "typing_state" "xyz" ∧
      dispatchFrame ["inbound_message", "outbound_message", "typing_state"]
        (fun _ => true) (fun p => if p = "42" then some 42 else none)
        "typing_state" "42" =
      DispatchOutcome.callParsed "typing_state" 42 := by
  have h1 := dispatch_never_drops
    ["inbound_message", "outbound_message", "typing_state"]
    (fun _ => true) (fun p => if p = "42" then some 42 else none)
    "typing_state" "xyz" (by decide) rfl
  have h2 := dispatch_never_drops
    ["inbound_message", "outbound_message", "typing_state"]
    (fun _ => true) (fun p => if p = "42" then some 42 else none)
    "typing_state" "42" (by decide) rfl
  exact ⟨h1.2.1 (by decide), h2.1 42 (by decide)⟩

/-- The merge callback at its own channel, at the level of the whole
channel entry. -/
theorem mergeHistory_self (cid : String) (history : List ChatMessage) (s : Store)
    (ex : ChannelLiveState) (h : s cid = some ex) :
    mergeHistory cid history s cid =
      some { ex with messages := mergeMessages history ex.messages } := by
  simp [mergeHistory, h]

/-- C7: merge-on-load is idempotent: resolving the same history twice
against the store, the live buffer unchanged in between, leaves the
store exactly as after the first merge.  The hypothesis records that
history rows arrive ascending by timestamp, as the log returns them. -/
theorem merge_on_load_idempotent (s : Store) (cid : String) (history : List ChatMessage)
    (hsorted : history.Pairwise (fun a b => a.timestamp ≤ b.timestamp)) :
    mergeHistory cid history (mergeHistory cid history s) = mergeHistory cid history s := by
  cases hx : s cid with
  | none =>
      have hid : mergeHistory cid history s = s := by
        simp [mergeHistory, hx]
      rw [hid]
      exact hid
  | some ex =>
      have hbound := le_lastHistoryTs history hsorted
      have hs1 : mergeHistory cid history s cid =
          some { ex with messages := mergeMessages history ex.messages } :=
        mergeHistory_self cid history s ex hx
      funext c
      by_cases hc : c = cid
      · subst hc
        rw [mergeHistory_self c history _ _ hs1, hs1]
        have hidem := mergeMessages_idem history ex.messages hbound
        simp [hidem]
      · rw [mergeHistory_other cid history (mergeHistory cid history s) c hc]

/-- Witness for C7: merging the same one-element history twice into the
c2 store equals merging it once. -/
theorem merge_on_load_idempotent_witness :
    mergeHistory "c2" [histMsg 100] (mergeHistory "c2" [histMsg 100] storeC2) =
      mergeHistory "c2" [histMsg 100] storeC2 :=
  merge_on_load_idempotent storeC2 "c2" [histMsg 100] (List.pairwise_singleton _ _)

/-- Once a channel is marked loaded, a run of operations dispatches no
fetch for it. -/
theorem dispatchCount_eq_zero_of_loaded (c : String) (L : List Op) (s : Store)
    (h : readLoaded s c = true) : dispatchCount c L s = 0 := by
  induction L generalizing s with
  | nil => rfl
  | cons op rest ih =>
      have h2 : opDispatches c op s = false := by
        cases op with
        | inbound event now rand => rfl
        | outbound event now rand => rfl
        | typing event => rfl
        | merge ch history => rfl
        | fetchFailed ch => rfl
        | markLoading ch =>
            by_cases hch : ch = c
            · subst hch
              simp [opDispatches, h]
            · simp [opDispatches, hch]
      simp [dispatchCount, h2, ih (applyOp op s) (readLoaded_applyOp op s c h)]

/-- C8: over any run of store operations at most one history fetch is
dispatched for a channel, and a history-loading pass over a channel
whose marker is not started does dispatch one. -/
theorem at_most_one_fetch :
    (∀ (c : String) (L : List Op) (s : Store), dispatchCount c L s ≤ 1) ∧
      ∀ (c : String) (s : Store), readLoaded s c = false →
        opDispatches c (Op.markLoading c) s = true := by
  constructor
  · intro c L
    induction L with
    | nil => intro s; simp [dispatchCount]
    | cons op rest ih =>
        intro s
        by_cases hd : opDispatches c op s = true
        · have hload : readLoaded (applyOp op s) c = true := by
            cases op with
            | inbound event now rand => simp [opDispatches] at hd
            | outbound event now rand => simp [opDispatches] at hd
            | typing event => simp [opDispatches] at hd
            | merge ch history => simp [opDispatches] at hd
            | fetchFailed ch => simp [opDispatches] at hd
            | markLoading ch =>
                have hch : ch = c := by
                  by_cases hch : ch = c
                  · exact hch
                  · simp [opDispatches, hch] at hd
                subst hch
                exact readLoaded_markHistoryLoading_self ch s
          simp [dispatchCount, hd,
            dispatchCount_eq_zero_of_loaded c rest (applyOp op s) hload]
        · simp only [dispatchCount, if_neg hd]
          simpa using ih (applyOp op s)
  · intro c s h
    simp [opDispatches, h]

/-- Witness for C8: the first history-loading pass over a fresh channel
dispatches its fetch, and a run with two passes counts one dispatch. -/
theorem at_most_one_fetch_witness :
    opDispatches "c1" (Op.markLoading "c1") emptyStore = true ∧
      dispatchCount "c1" [Op.markLoading "c1", Op.markLoading "c1"] emptyStore ≤ 1 := by
  exact ⟨at_most_one_fetch.2 "c1" emptyStore (by decide),
    at_most_one_fetch.1 "c1" [Op.markLoading "c1", Op.markLoading "c1"] emptyStore⟩

/-- C9: on connection failure the client closes the source and
schedules one reconnect with the fixed 2000 ms delay; when the timer
fires, connect registers a listener for every key of the current
handler map, so a handler present before the disconnect is active
afterwards; cleanup closes the source and cancels the pending timer,
after which no frame can reach a handler. -/
theorem reconnect_behavior (s : ClientState) (handlerKeys : List String)
    (eventType : String) (hk : eventType ∈ handlerKeys) :
    (onerror s).conn = none ∧
      (onerror s).pendingDelayMs = some RECONNECT_DELAY_MS ∧
      RECONNECT_DELAY_MS = 2000 ∧
      canDeliver (fireReconnect handlerKeys (onerror s)) eventType = true ∧
      (fireReconnect handlerKeys (onerror s)).pendingDelayMs = none ∧
      (cleanup (fireReconnect handlerKeys (onerror s))).conn = none ∧
      (cleanup (fireReconnect handlerKeys (onerror s))).pendingDelayMs = none ∧
      (∀ t : String, canDeliver (cleanup (fireReconnect handlerKeys (onerror s))) t = false) := by
  refine ⟨rfl, rfl, rfl, ?_, rfl, rfl, rfl, fun t => rfl⟩
  simp [canDeliver, fireReconnect, connect, hk]

/-- Witness for C9 with the three dashboard handler keys and an
inbound_message frame. -/
theorem reconnect_behavior_witness :
    canDeliver (fireReconnect ["inbound_message", "outbound_message", "typing_state"]
        (onerror { conn := some ["inbound_message", "outbound_message", "typing_state"]
                   pendingDelayMs := none })) "inbound_message" = true ∧
      (∀ t : String, canDeliver (cleanup (fireReconnect
        ["inbound_message", "outbound_message", "typing_state"]
        (onerror { conn := some ["inbound_message", "outbound_message", "typing_state"]
                   pendingDelayMs := none }))) t = false) := by
  have h := reconnect_behavior
    { conn := some ["inbound_message", "outbound_message", "typing_state"]
      pendingDelayMs := none }
    ["inbound_message", "outbound_message", "typing_state"] "inbound_message" (by decide)
  exact ⟨h.2.2.2.1, h.2.2.2.2.2.2.2⟩

end Spacebot
